import Mathlib

/-!
Verification of the `qbit` repository's torrent-metainfo building code
(`src/examples/basic.ts`, `src/lib/client.ts`) against its natural-language
specification.  The TypeScript is shallowly embedded: JavaScript strings are
`String`/`List Char`, JavaScript numbers appearing here are `Int`/`Nat` (the
relevant values are integral), `Uint8Array` is `List Nat` with bytes reduced
modulo 256, JavaScript objects are ordered association lists, and thrown
exceptions are `Except` errors.
-/

namespace Qbit

/-! ## JavaScript `parseInt(s, 16)` semantics

`basic.ts` decodes piece hashes with `parseInt(hex.substr(c, 2), 16)`.
ECMAScript `parseInt` with radix 16 skips leading whitespace, accepts an
optional sign, strips an optional `0x`/`0X` mark, then reads the longest
prefix of hexadecimal digits; it returns NaN (modelled as `none`) when that
prefix is empty. -/

/-- Hexadecimal digit value of a character, if it is one of `0-9a-fA-F`. -/
def hexDigitVal? (c : Char) : Option Nat :=
  if 48 ≤ c.toNat ∧ c.toNat ≤ 57 then some (c.toNat - 48)
  else if 97 ≤ c.toNat ∧ c.toNat ≤ 102 then some (c.toNat - 87)
  else if 65 ≤ c.toNat ∧ c.toNat ≤ 70 then some (c.toNat - 55)
  else none

/-- Whitespace characters skipped by `parseInt` (ASCII subset). -/
def isWSpace (c : Char) : Bool :=
  c.toNat = 32 || c.toNat = 9 || c.toNat = 10 || c.toNat = 13 ||
  c.toNat = 11 || c.toNat = 12

/-- Longest-prefix hexadecimal accumulation: consume digits until the first
non-digit, returning `none` when no digit was consumed at all. -/
def takeHexDigits : List Char → Option Nat → Option Nat
  | [], acc => acc
  | c :: rest, acc =>
    match hexDigitVal? c with
    | some d => takeHexDigits rest (some (acc.getD 0 * 16 + d))
    | none => acc

/-- Strip a leading `0x`/`0X` hexadecimal mark (`'0'` is 48, `'x'` 120,
`'X'` 88). -/
def stripHexMark : List Char → List Char
  | c :: x :: rest =>
    if c.toNat = 48 ∧ (x.toNat = 120 ∨ x.toNat = 88) then rest
    else c :: x :: rest
  | cs => cs

/-- Unsigned part of `parseInt(s, 16)`: optional `0x` mark then digits. -/
def parseHexMag (cs : List Char) : Option Int :=
  match takeHexDigits (stripHexMark cs) none with
  | none => none
  | some n => some (n : Int)

/-- Model of `parseInt(s, 16)` on a character list: whitespace, optional
sign, magnitude.  Here `none` models NaN ('+' is 43, '-' is 45). -/
def parseIntHexCore (cs0 : List Char) : Option Int :=
  match cs0.dropWhile isWSpace with
  | [] => none
  | c :: rest =>
    if c.toNat = 43 then parseHexMag rest
    else if c.toNat = 45 then
      match parseHexMag rest with
      | none => none
      | some n => some (-n)
    else parseHexMag (c :: rest)

/-- Element conversion of `new Uint8Array(...)`: NaN becomes 0, numbers
are reduced modulo 2^8. -/
def toUint8 : Option Int → Nat
  | none => 0
  | some i => (i % 256).toNat

/-! ## The piece-hash assembly loops

`basic.ts` contains the same reduce loop twice: once at top level of the
first script (lines 121–128) and once inside `mktorrent` (lines 271–278):

```
const pieces = new Uint8Array(pieceHashes.reduce((acc, hex) => {
  for (let c = 0; c < hex.length; c += 2) {
    acc.push(parseInt(hex.substr(c, 2), 16));
  }
  return acc;
}, []));
```

Each copy is transcribed separately (`Top` for the top-level script copy,
`Mk` for the copy inside `mktorrent`). -/

/-- Inner `for (let c = 0; c < hex.length; c += 2)` loop of the top-level
script copy: pushes `parseInt(hex.substr(c, 2), 16)` for each index step. -/
def hexLoopTop (hex : List Char) (c : Nat) (acc : List (Option Int)) :
    List (Option Int) :=
  if _h : c < hex.length then
    hexLoopTop hex (c + 2) (acc ++ [parseIntHexCore ((hex.drop c).take 2)])
  else acc
termination_by hex.length - c
decreasing_by omega

/-- Inner loop of the copy inside `mktorrent` (same source text). -/
def hexLoopMk (hex : List Char) (c : Nat) (acc : List (Option Int)) :
    List (Option Int) :=
  if _h : c < hex.length then
    hexLoopMk hex (c + 2) (acc ++ [parseIntHexCore ((hex.drop c).take 2)])
  else acc
termination_by hex.length - c
decreasing_by omega

/-- The `reduce` over all piece-hash strings, top-level script copy. -/
def piecesReduceTop (hashes : List String) : List (Option Int) :=
  hashes.foldl (fun acc hex => hexLoopTop hex.data 0 acc) []

/-- The `reduce` over all piece-hash strings, `mktorrent` copy. -/
def piecesReduceMk (hashes : List String) : List (Option Int) :=
  hashes.foldl (fun acc hex => hexLoopMk hex.data 0 acc) []

/-- Byte conversion `new Uint8Array(...)` of the reduced list, top-level
script copy. -/
def piecesBytesTop (hashes : List String) : List Nat :=
  (piecesReduceTop hashes).map toUint8

/-- Byte conversion `new Uint8Array(...)` of the reduced list, `mktorrent`
copy: the `pieces` value placed in the `info` dictionary. -/
def piecesBytesMk (hashes : List String) : List Nat :=
  (piecesReduceMk hashes).map toUint8

/-! ### Structural characterisation of the loops -/

/-- Two-character chunks of a list, the last chunk possibly a single
character (as produced by `substr(c, 2)` on an odd-length string). -/
def chunks2 : List (Char) → List (List Char)
  | [] => []
  | [c] => [[c]]
  | a :: b :: rest => [a, b] :: chunks2 rest

theorem chunks2_of_ne_nil (l : List Char) (h : l ≠ []) :
    chunks2 l = l.take 2 :: chunks2 (l.drop 2) := by
  match l with
  | [] => exact absurd rfl h
  | [a] => rfl
  | a :: b :: rest => rfl

theorem chunks2_length (l : List Char) :
    (chunks2 l).length = (l.length + 1) / 2 := by
  match l with
  | [] => rfl
  | [a] => simp [chunks2]
  | a :: b :: rest =>
    simp only [chunks2, List.length_cons, chunks2_length rest]
    omega

theorem hexLoopTop_chunks (n : Nat) :
    ∀ (hex : List Char) (c : Nat) (acc : List (Option Int)),
      hex.length - c ≤ n →
      hexLoopTop hex c acc =
        acc ++ (chunks2 (hex.drop c)).map parseIntHexCore := by
  induction n with
  | zero =>
    intro hex c acc h
    rw [hexLoopTop]
    have hc : ¬ c < hex.length := by omega
    have hd : hex.drop c = [] := by
      apply List.drop_eq_nil_of_le
      omega
    simp [hc, hd, chunks2]
  | succ n ih =>
    intro hex c acc h
    rw [hexLoopTop]
    by_cases hc : c < hex.length
    · have hne : hex.drop c ≠ [] := by
        intro hnil
        have := List.drop_eq_nil_iff.mp hnil
        omega
      rw [dif_pos hc, ih hex (c + 2) _ (by omega),
        chunks2_of_ne_nil (hex.drop c) hne]
      simp [List.drop_drop]
    · have hd : hex.drop c = [] := by
        apply List.drop_eq_nil_of_le
        omega
      simp [hc, hd, chunks2]

theorem hexLoopMk_chunks (n : Nat) :
    ∀ (hex : List Char) (c : Nat) (acc : List (Option Int)),
      hex.length - c ≤ n →
      hexLoopMk hex c acc =
        acc ++ (chunks2 (hex.drop c)).map parseIntHexCore := by
  induction n with
  | zero =>
    intro hex c acc h
    rw [hexLoopMk]
    have hc : ¬ c < hex.length := by omega
    have hd : hex.drop c = [] := by
      apply List.drop_eq_nil_of_le
      omega
    simp [hc, hd, chunks2]
  | succ n ih =>
    intro hex c acc h
    rw [hexLoopMk]
    by_cases hc : c < hex.length
    · have hne : hex.drop c ≠ [] := by
        intro hnil
        have := List.drop_eq_nil_iff.mp hnil
        omega
      rw [dif_pos hc, ih hex (c + 2) _ (by omega),
        chunks2_of_ne_nil (hex.drop c) hne]
      simp [List.drop_drop]
    · have hd : hex.drop c = [] := by
        apply List.drop_eq_nil_of_le
        omega
      simp [hc, hd, chunks2]

theorem hexLoopTop_eq (hex : List Char) (c : Nat) (acc : List (Option Int)) :
    hexLoopTop hex c acc = acc ++ (chunks2 (hex.drop c)).map parseIntHexCore :=
  hexLoopTop_chunks (hex.length - c) hex c acc le_rfl

theorem hexLoopMk_eq (hex : List Char) (c : Nat) (acc : List (Option Int)) :
    hexLoopMk hex c acc = acc ++ (chunks2 (hex.drop c)).map parseIntHexCore :=
  hexLoopMk_chunks (hex.length - c) hex c acc le_rfl

theorem piecesReduceTop_aux (hs : List String) :
    ∀ acc, hs.foldl (fun acc hex => hexLoopTop hex.data 0 acc) acc =
      acc ++ hs.flatMap (fun h => (chunks2 h.data).map parseIntHexCore) := by
  induction hs with
  | nil => intro acc; simp
  | cons h t ih =>
    intro acc
    rw [List.foldl_cons, hexLoopTop_eq, ih]
    simp [List.drop_zero]

theorem piecesReduceMk_aux (hs : List String) :
    ∀ acc, hs.foldl (fun acc hex => hexLoopMk hex.data 0 acc) acc =
      acc ++ hs.flatMap (fun h => (chunks2 h.data).map parseIntHexCore) := by
  induction hs with
  | nil => intro acc; simp
  | cons h t ih =>
    intro acc
    rw [List.foldl_cons, hexLoopMk_eq, ih]
    simp [List.drop_zero]

theorem piecesBytesTop_eq (hs : List String) :
    piecesBytesTop hs =
      (hs.flatMap (fun h => (chunks2 h.data).map parseIntHexCore)).map toUint8 := by
  rw [piecesBytesTop, piecesReduceTop, piecesReduceTop_aux]
  simp

theorem piecesBytesMk_eq (hs : List String) :
    piecesBytesMk hs =
      (hs.flatMap (fun h => (chunks2 h.data).map parseIntHexCore)).map toUint8 := by
  rw [piecesBytesMk, piecesReduceMk, piecesReduceMk_aux]
  simp

/-! ### Decoding valid hexadecimal digests

The specification's own description of hash assembly: each pair of hex
characters decodes to one byte, in order.  `specPairs`/`digestBytes` is that
spec-side decoding, to be compared with the code's loop. -/

/-- Value of a hex character, 0 for non-hex characters (spec side). -/
def hexCharVal (c : Char) : Nat := (hexDigitVal? c).getD 0

/-- Spec-side pairwise decoding: each pair of characters becomes the byte
`16 * high + low`, preserving order. -/
def specPairs : List Char → List Nat
  | a :: b :: rest => (hexCharVal a * 16 + hexCharVal b) :: specPairs rest
  | _ => []

/-- Spec-side decoding of one hex digest string. -/
def digestBytes (s : String) : List Nat := specPairs s.data

theorem specPairs_length (l : List Char) :
    (specPairs l).length = l.length / 2 := by
  match l with
  | [] => rfl
  | [a] => simp [specPairs]
  | a :: b :: rest =>
    simp only [specPairs, List.length_cons, specPairs_length rest]
    omega

theorem hexDigitVal_facts (c : Char) (d : Nat) (h : hexDigitVal? c = some d) :
    isWSpace c = false ∧ c.toNat ≠ 43 ∧ c.toNat ≠ 45 ∧ c.toNat ≠ 120 ∧
      c.toNat ≠ 88 ∧ d < 16 := by
  rw [hexDigitVal?] at h
  split_ifs at h with h1 h2 h3 <;>
    · obtain rfl := Option.some.inj h
      refine ⟨?_, by omega, by omega, by omega, by omega, by omega⟩
      simp only [isWSpace, Bool.or_eq_false_iff, decide_eq_false_iff_not]
      omega

/-- On a pair of hexadecimal characters, the JavaScript `parseInt(_, 16)`
model returns exactly the two-nibble value. -/
theorem parseIntHexCore_pair (a b : Char) (da db : Nat)
    (ha : hexDigitVal? a = some da) (hb : hexDigitVal? b = some db) :
    parseIntHexCore [a, b] = some ((da * 16 + db : Nat) : Int) := by
  obtain ⟨haw, ha43, ha45, _, _, _⟩ := hexDigitVal_facts a da ha
  obtain ⟨_, _, _, hb120, hb88, _⟩ := hexDigitVal_facts b db hb
  rw [parseIntHexCore]
  rw [List.dropWhile_cons, haw]
  simp only [Bool.false_eq_true, if_false, ha43, ha45, if_neg, ite_false]
  rw [parseHexMag, stripHexMark]
  rw [if_neg (by omega)]
  simp [takeHexDigits, ha, hb]

/-- On a single hexadecimal character (odd trailing chunk), the model
returns that digit's value. -/
theorem parseIntHexCore_single (a : Char) (da : Nat)
    (ha : hexDigitVal? a = some da) :
    parseIntHexCore [a] = some ((da : Nat) : Int) := by
  obtain ⟨haw, ha43, ha45, _, _, _⟩ := hexDigitVal_facts a da ha
  rw [parseIntHexCore]
  rw [List.dropWhile_cons, haw]
  simp only [Bool.false_eq_true, if_false, ha43, ha45, if_neg, ite_false]
  rw [parseHexMag]
  simp [stripHexMark, takeHexDigits, ha]

theorem toUint8_small (n : Nat) (h : n < 256) :
    toUint8 (some ((n : Nat) : Int)) = n := by
  rw [toUint8]
  omega

/-- The code's per-chunk decoding agrees with the spec-side pairwise
decoding on even-length all-hexadecimal character lists. -/
theorem chunks2_decode (cs : List Char)
    (hhex : ∀ c ∈ cs, (hexDigitVal? c).isSome = true)
    (heven : cs.length % 2 = 0) :
    (chunks2 cs).map (fun ch => toUint8 (parseIntHexCore ch)) = specPairs cs := by
  match cs with
  | [] => rfl
  | [a] => simp at heven
  | a :: b :: rest =>
    have ha : (hexDigitVal? a).isSome = true := hhex a (by simp)
    have hb : (hexDigitVal? b).isSome = true := hhex b (by simp)
    obtain ⟨da, hda⟩ := Option.isSome_iff_exists.mp ha
    obtain ⟨db, hdb⟩ := Option.isSome_iff_exists.mp hb
    have hrest : ∀ c ∈ rest, (hexDigitVal? c).isSome = true := by
      intro c hc
      exact hhex c (by simp [hc])
    have heven' : rest.length % 2 = 0 := by
      simp only [List.length_cons] at heven
      omega
    have hda16 := (hexDigitVal_facts a da hda).2.2.2.2.2
    have hdb16 := (hexDigitVal_facts b db hdb).2.2.2.2.2
    rw [chunks2, List.map_cons, chunks2_decode rest hrest heven']
    rw [specPairs, parseIntHexCore_pair a b da db hda hdb]
    rw [toUint8_small _ (by omega)]
    rw [hexCharVal, hexCharVal, hda, hdb]
    simp

/-! ## The `mktorrent` metainfo build (`src/examples/basic.ts`, lines 213–307)

The build portion of `mktorrent` is modelled as a pure function over the
already-fetched daemon data.  JavaScript objects become ordered association
lists (`List (String × JSVal)`), thrown exceptions become `Except` errors
(`Error` from `throw new Error(...)`, `TypeError` from property access on
`undefined`/`null`).  File writing, which follows the build, is I/O and out
of scope. -/

/-- JavaScript values as they occur in the built metainfo object. -/
inductive JSVal where
  | undef
  | nan
  | num (n : Int)
  | str (s : String)
  | bytes (bs : List Nat)
  | list (xs : List JSVal)
  | obj (fields : List (String × JSVal))

/-- JavaScript exceptions observable in the build. -/
inductive JSError where
  | error (msg : String)
  | typeError (msg : String)

/-- One entry of the daemon's `torrents/files` response: `name` and `size`
(`src/lib/types.ts`). -/
structure DaemonFile where
  name : String
  size : Nat
deriving DecidableEq

/-- The fields of the `torrents/properties` response used by `mktorrent`
(`basic.ts` lines 244–249); each may be missing from the JSON. -/
structure TorrentProps where
  comment : Option String
  creation_date : Option Int
  created_by : Option String
  piece_size : Nat

/-- Input of one `mktorrent` build: the option flags plus the daemon
responses (`none` models a failed fetch / missing torrent). -/
structure MkRequest where
  name? : Option String
  announceList : List String
  comment? : Option String
  isPrivate : Option Bool
  /-- Pair `(name, tracker)` of the torrent from the torrent-list fetch;
  `none` when the torrent does not exist. -/
  torrentInfo : Option (String × String)
  /-- Result of the properties fetch; `none` models `null` (failure). -/
  props : Option TorrentProps
  /-- Response of the file-list fetch. -/
  daemonFiles : List DaemonFile
  /-- Body of the piece-hashes HTTP response; `none` when the response
  was not ok. -/
  pieceHashesResp : Option (List String)

/-- JavaScript string falsiness of an optional string: `undefined` and the
empty string are falsy. -/
def strFalsy (o : Option String) : Prop := o = none ∨ o = some ""

instance (o : Option String) : Decidable (strFalsy o) := by
  unfold strFalsy
  infer_instance

/-- Model of `client.pieceHashes` (`src/lib/client.ts` lines 292–299): it
returns the parsed JSON body when the response is ok and the empty array
otherwise. -/
def pieceHashesOf (resp : Option (List String)) : List String := resp.getD []

/-- Lines 226–241: resolve `name` and `announceList` from the torrent list
when either is missing, throwing when the torrent does not exist. -/
def resolveNameAnnounce (req : MkRequest) :
    Except JSError (String × List String) :=
  if strFalsy req.name? ∨ req.announceList = [] then
    match req.torrentInfo with
    | none => .error (.error "Torrent does not exist")
    | some ti =>
      .ok (if strFalsy req.name? then ti.1 else req.name?.getD "",
        if req.announceList = [] then req.announceList ++ [ti.2]
        else req.announceList)
  else
    .ok (req.name?.getD "", req.announceList)

/-- The name `mktorrent` ends up using, given the torrent-list entry. -/
def resolvedName (req : MkRequest) (ti : String × String) : String :=
  if strFalsy req.name? then ti.1 else req.name?.getD ""

/-- The announce list `mktorrent` ends up using, given the torrent-list
entry. -/
def resolvedAnnounce (req : MkRequest) (ti : String × String) : List String :=
  if req.announceList = [] then req.announceList ++ [ti.2]
  else req.announceList

/-- Lines 251–254: `if (!comment) comment = existingComment || ""`. -/
def effComment (req : MkRequest) (p : TorrentProps) : String :=
  if strFalsy req.comment? then p.comment.getD "" else req.comment?.getD ""

/-- JavaScript `String.prototype.split` with a one-character separator:
always returns at least one (possibly empty) segment. -/
def splitOnChar (sep : Char) : List Char → List (List Char)
  | [] => [[]]
  | c :: rest =>
    let r := splitOnChar sep rest
    if c = sep then [] :: r
    else
      match r with
      | h :: t => (c :: h) :: t
      | [] => [[c]]

/-- Lines 257–267: each daemon file's `name` is split on `"/"` and the
first segment removed by `path.shift()`. -/
def filePath (name : String) : List String :=
  ((splitOnChar '/' name.data).map String.mk).drop 1

/-- A mapped `{ length, path }` file entry. -/
structure FileEntry where
  length : Nat
  path : List String

/-- The file mapping of lines 257–267. -/
def mkFileEntry (f : DaemonFile) : FileEntry :=
  { length := f.size, path := filePath f.name }

/-- A file entry as it appears in `info.files`. -/
def fileEntryJS (e : FileEntry) : JSVal :=
  .obj [("length", .num (e.length : Int)), ("path", .list (e.path.map .str))]

/-- Coercion `Number(isPrivate)`: `Number(undefined)` is NaN, booleans
become 0/1. -/
def jsNumberOfBool : Option Bool → JSVal
  | none => .nan
  | some true => .num 1
  | some false => .num 0

/-- An optional JSON string field as a JavaScript value. -/
def jsOfOptStr : Option String → JSVal
  | none => .undef
  | some s => .str s

/-- An optional JSON integer field as a JavaScript value. -/
def jsOfOptNum : Option Int → JSVal
  | none => .undef
  | some n => .num n

/-- Array indexing `announceList[0]`: `undefined` on an empty array. -/
def jsIndex0 : List String → JSVal
  | [] => .undef
  | a :: _ => .str a

/-- JavaScript property lookup on an object modelled as an ordered
association list. -/
def objLookup : List (String × JSVal) → String → Option JSVal
  | [], _ => none
  | (k', v) :: rest, k => if k' = k then some v else objLookup rest k

/-- The `delete obj.key` operation: remove the key, keep the order of the
remaining properties. -/
def objDelete : List (String × JSVal) → String → List (String × JSVal)
  | [], _ => []
  | (k', v) :: rest, k =>
    if k' = k then objDelete rest k else (k', v) :: objDelete rest k

/-- Lines 280–297: the `info` object literal followed by the two `delete`
statements keyed on the number of files. -/
def infoDict (name : String) (pieceSize : Nat) (isPrivate : Option Bool)
    (files : List FileEntry) (pieces : List Nat) (firstLen : Nat) :
    List (String × JSVal) :=
  let base := [("name", JSVal.str name),
    ("length", JSVal.num (firstLen : Int)),
    ("files", JSVal.list (files.map fileEntryJS)),
    ("piece length", JSVal.num (pieceSize : Int)),
    ("pieces", JSVal.bytes pieces),
    ("private", jsNumberOfBool isPrivate)]
  let i1 := if files.length > 1 then objDelete base "length" else base
  if files.length = 1 then objDelete i1 "files" else i1

/-- Lines 299–307: the outer object literal passed to `encode`. -/
def outerDict (announceList : List String) (comment : String)
    (p : TorrentProps) (info : List (String × JSVal)) :
    List (String × JSVal) :=
  [("announce", jsIndex0 announceList),
    ("announce-list", JSVal.list (announceList.map JSVal.str)),
    ("comment", JSVal.str comment),
    ("created by", jsOfOptStr p.created_by),
    ("creation date", jsOfOptNum p.creation_date),
    ("info", JSVal.obj info)]

/-- The build portion of `mktorrent` (lines 217–307): resolve name and
announce list, destructure the properties response, map the files, assemble
the piece bytes, build `info` (throwing a `TypeError` when `files[0]` is
`undefined`), and return the outer object. -/
def mktorrentBuild (req : MkRequest) :
    Except JSError (List (String × JSVal)) :=
  match resolveNameAnnounce req with
  | .error e => .error e
  | .ok (name, announceList) =>
    match req.props with
    | none => .error (.typeError "Cannot destructure property of null")
    | some p =>
      let comment := effComment req p
      let files := req.daemonFiles.map mkFileEntry
      let pieces := piecesBytesMk (pieceHashesOf req.pieceHashesResp)
      match files.head? with
      | none =>
        .error (.typeError "Cannot read properties of undefined (reading 'length')")
      | some firstFile =>
        .ok (outerDict announceList comment p
          (infoDict name p.piece_size req.isPrivate files pieces
            firstFile.length))

/-- Whether the build succeeded. -/
def buildOk (req : MkRequest) : Bool :=
  match mktorrentBuild req with
  | .ok _ => true
  | .error _ => false

/-- Lookup of a key in the built outer dictionary (`none` when the build
failed). -/
def builtLookup (req : MkRequest) (k : String) : Option JSVal :=
  match mktorrentBuild req with
  | .ok o => objLookup o k
  | .error _ => none

/-- Lookup of a key in the built `info` dictionary. -/
def builtInfoLookup (req : MkRequest) (k : String) : Option JSVal :=
  match mktorrentBuild req with
  | .ok o =>
    match objLookup o "info" with
    | some (.obj i) => objLookup i k
    | _ => none
  | .error _ => none

/-- Total content size: sum of the daemon-reported file sizes. -/
def totalSizeR (req : MkRequest) : Nat :=
  (req.daemonFiles.map (fun f => f.size)).sum

/-- The piece count the spec expects: `ceil(totalSize / pieceLength)`. -/
def expectedPieceCount (req : MkRequest) : Nat :=
  match req.props with
  | some p => (totalSizeR req + p.piece_size - 1) / p.piece_size
  | none => 0

/-- The number of piece-hash digests actually supplied. -/
def suppliedPieceCount (req : MkRequest) : Nat :=
  (pieceHashesOf req.pieceHashesResp).length

/-! ### Build-model lemmas -/

theorem resolveNameAnnounce_eq (req : MkRequest) (ti : String × String)
    (h1 : req.torrentInfo = some ti) :
    resolveNameAnnounce req =
      .ok (resolvedName req ti, resolvedAnnounce req ti) := by
  rw [resolveNameAnnounce, resolvedName, resolvedAnnounce]
  by_cases hc : strFalsy req.name? ∨ req.announceList = []
  · rw [if_pos hc, h1]
  · rw [if_neg hc]
    push_neg at hc
    rw [if_neg hc.1, if_neg hc.2]

theorem mktorrentBuild_ok (req : MkRequest) (ti : String × String)
    (p : TorrentProps) (f : DaemonFile) (fs : List DaemonFile)
    (h1 : req.torrentInfo = some ti) (h2 : req.props = some p)
    (h3 : req.daemonFiles = f :: fs) :
    mktorrentBuild req = .ok (outerDict (resolvedAnnounce req ti)
      (effComment req p) p
      (infoDict (resolvedName req ti) p.piece_size req.isPrivate
        ((f :: fs).map mkFileEntry)
        (piecesBytesMk (pieceHashesOf req.pieceHashesResp)) f.size)) := by
  rw [mktorrentBuild, resolveNameAnnounce_eq req ti h1, h2, h3]
  simp [mkFileEntry]

theorem objLookup_delete (o : List (String × JSVal)) (k k' : String)
    (h : ¬ k' = k) : objLookup (objDelete o k') k = objLookup o k := by
  induction o with
  | nil => rfl
  | cons hd rest ih =>
    obtain ⟨k0, v⟩ := hd
    by_cases h0 : k0 = k'
    · subst h0
      rw [objDelete, if_pos rfl, ih, objLookup, if_neg (fun hh => h hh)]
    · rw [objDelete, if_neg h0, objLookup, objLookup, ih]

theorem infoDict_one (name : String) (ps : Nat) (ip : Option Bool)
    (e : FileEntry) (pieces : List Nat) (flen : Nat) :
    infoDict name ps ip [e] pieces flen =
      [("name", JSVal.str name),
        ("length", JSVal.num (flen : Int)),
        ("piece length", JSVal.num (ps : Int)),
        ("pieces", JSVal.bytes pieces),
        ("private", jsNumberOfBool ip)] := by
  simp [infoDict, objDelete]

theorem infoDict_multi (name : String) (ps : Nat) (ip : Option Bool)
    (e1 e2 : FileEntry) (es : List FileEntry) (pieces : List Nat)
    (flen : Nat) :
    infoDict name ps ip (e1 :: e2 :: es) pieces flen =
      [("name", JSVal.str name),
        ("files", JSVal.list ((e1 :: e2 :: es).map fileEntryJS)),
        ("piece length", JSVal.num (ps : Int)),
        ("pieces", JSVal.bytes pieces),
        ("private", jsNumberOfBool ip)] := by
  have h1 : (e1 :: e2 :: es : List FileEntry).length > 1 := by
    simp only [List.length_cons]
    omega
  have h2 : ¬ (e1 :: e2 :: es : List FileEntry).length = 1 := by
    simp only [List.length_cons]
    omega
  simp [infoDict, h1, h2, objDelete]

theorem infoDict_lookup_pieces (name : String) (ps : Nat) (ip : Option Bool)
    (files : List FileEntry) (pieces : List Nat) (flen : Nat) :
    objLookup (infoDict name ps ip files pieces flen) "pieces" =
      some (.bytes pieces) := by
  by_cases hA : files.length = 1 <;> by_cases hB : files.length > 1 <;>
    simp [infoDict, hA, hB, objLookup_delete, objLookup]

theorem outerDict_lookup_info (ann : List String) (comment : String)
    (p : TorrentProps) (info : List (String × JSVal)) :
    objLookup (outerDict ann comment p info) "info" = some (.obj info) := by
  simp [outerDict, objLookup]

theorem builtLookup_ok (req : MkRequest) (ti : String × String)
    (p : TorrentProps) (f : DaemonFile) (fs : List DaemonFile)
    (h1 : req.torrentInfo = some ti) (h2 : req.props = some p)
    (h3 : req.daemonFiles = f :: fs) (k : String) :
    builtLookup req k = objLookup (outerDict (resolvedAnnounce req ti)
      (effComment req p) p
      (infoDict (resolvedName req ti) p.piece_size req.isPrivate
        ((f :: fs).map mkFileEntry)
        (piecesBytesMk (pieceHashesOf req.pieceHashesResp)) f.size)) k := by
  rw [builtLookup, mktorrentBuild_ok req ti p f fs h1 h2 h3]

theorem builtInfoLookup_ok (req : MkRequest) (ti : String × String)
    (p : TorrentProps) (f : DaemonFile) (fs : List DaemonFile)
    (h1 : req.torrentInfo = some ti) (h2 : req.props = some p)
    (h3 : req.daemonFiles = f :: fs) (k : String) :
    builtInfoLookup req k =
      objLookup (infoDict (resolvedName req ti) p.piece_size req.isPrivate
        ((f :: fs).map mkFileEntry)
        (piecesBytesMk (pieceHashesOf req.pieceHashesResp)) f.size) k := by
  rw [builtInfoLookup, mktorrentBuild_ok req ti p f fs h1 h2 h3]
  simp only [outerDict_lookup_info]

theorem splitOnChar_no_sep (sep : Char) (cs : List Char) (h : sep ∉ cs) :
    splitOnChar sep cs = [cs] := by
  induction cs with
  | nil => rfl
  | cons c rest ih =>
    simp only [List.mem_cons, not_or] at h
    simp only [splitOnChar]
    rw [if_neg (fun hc => h.1 hc.symm), ih h.2]

theorem filePath_no_sep (name : String) (h : '/' ∉ name.data) :
    filePath name = [] := by
  rw [filePath, splitOnChar_no_sep '/' name.data h]
  rfl

/-! ## Claims about the piece-hash assembly -/

theorem piecesBytesMk_valid (hs : List String)
    (h : ∀ s ∈ hs, s.length = 40 ∧
      ∀ c ∈ s.data, (hexDigitVal? c).isSome = true) :
    piecesBytesMk hs = hs.flatMap digestBytes := by
  rw [piecesBytesMk_eq]
  induction hs with
  | nil => rfl
  | cons s t ih =>
    have hs0 := h s (List.mem_cons_self s t)
    have ht : ∀ x ∈ t, x.length = 40 ∧
        ∀ c ∈ x.data, (hexDigitVal? c).isSome = true :=
      fun x hx => h x (List.mem_cons_of_mem s hx)
    rw [List.flatMap_cons, List.flatMap_cons, List.map_append, ih ht,
      List.map_map]
    have heven : s.data.length % 2 = 0 := by
      have : s.data.length = s.length := rfl
      rw [this, hs0.1]
    rw [show ((chunks2 s.data).map (toUint8 ∘ parseIntHexCore)) =
        (chunks2 s.data).map (fun ch => toUint8 (parseIntHexCore ch)) from rfl,
      chunks2_decode s.data hs0.2 heven]
    rfl

theorem flatMap_digestBytes_length (hs : List String)
    (h : ∀ s ∈ hs, s.length = 40) :
    (hs.flatMap digestBytes).length = 20 * hs.length := by
  induction hs with
  | nil => rfl
  | cons s t ih =>
    rw [List.flatMap_cons, List.length_append,
      ih (fun x hx => h x (List.mem_cons_of_mem s hx))]
    have h40 : (digestBytes s).length = 20 := by
      rw [digestBytes, specPairs_length,
        show s.data.length = s.length from rfl, h s (List.mem_cons_self s t)]
    rw [h40, List.length_cons]
    omega

/-- C4: for every list of strings of exactly 40 hexadecimal characters, the
assembled `pieces` value is exactly the concatenation of the hex-pair
decodings of each digest, in order, with length `20 * n`; the empty list
yields the empty byte sequence. -/
theorem pieces_assembly_valid (hs : List String)
    (h : ∀ s ∈ hs, s.length = 40 ∧
      ∀ c ∈ s.data, (hexDigitVal? c).isSome = true) :
    piecesBytesMk hs = hs.flatMap digestBytes ∧
      (piecesBytesMk hs).length = 20 * hs.length ∧
      piecesBytesMk [] = [] := by
  refine ⟨piecesBytesMk_valid hs h, ?_, rfl⟩
  rw [piecesBytesMk_valid hs h,
    flatMap_digestBytes_length hs (fun s hx => (h s hx).1)]

/-- One of the spec's example digests: 40 hexadecimal characters. -/
def digestA : String := String.mk (List.replicate 40 'a')

/-- C4 witness: the theorem applied to the one-digest list `[digestA]`. -/
theorem pieces_assembly_valid_wit :
    piecesBytesMk [digestA] = [digestA].flatMap digestBytes ∧
      (piecesBytesMk [digestA]).length = 20 * [digestA].length ∧
      piecesBytesMk [] = [] :=
  pieces_assembly_valid [digestA] (by decide)

/-- C3 counterexample: on the malformed (non-hexadecimal, not 40-character)
digest `"zz"` the assembly loop does not fail: it silently produces the
byte sequence `[0]` (JavaScript `parseInt("zz", 16)` is NaN, which
`Uint8Array` converts to the 0 byte). -/
theorem pieces_malformed_cex : piecesBytesMk [String.mk ['z', 'z']] = [0] := by
  rw [piecesBytesMk_eq]
  rfl

/-- C3 amended: the assembler performs no validation and never fails: for
every input list (malformed or not) it totally produces a byte sequence,
one byte per two-character chunk (`ceil(len/2)` bytes per string), with
unparsable chunks contributing the byte 0. -/
theorem pieces_malformed_amended (hs : List String) :
    (piecesBytesMk hs).length = (hs.map (fun s => (s.length + 1) / 2)).sum := by
  rw [piecesBytesMk_eq, List.length_map]
  induction hs with
  | nil => rfl
  | cons s t ih =>
    rw [List.flatMap_cons, List.length_append, ih, List.map_cons,
      List.sum_cons, List.length_map, chunks2_length]
    rfl

/-- C3 witness: the amended theorem applied to a concrete list holding an
odd-length and a malformed digest. -/
theorem pieces_malformed_amended_wit :
    (piecesBytesMk [String.mk ['a', 'b', 'c'], String.mk ['q', 'q']]).length =
      ([String.mk ['a', 'b', 'c'], String.mk ['q', 'q']].map
        (fun s => (s.length + 1) / 2)).sum :=
  pieces_malformed_amended [String.mk ['a', 'b', 'c'], String.mk ['q', 'q']]

/-- C10: the two duplicated piece-hash assembly loops — the top-level
script copy (`basic.ts` lines 121–128) and the copy inside `mktorrent`
(lines 271–278) — compute the same function. -/
theorem pieces_loops_agree (hs : List String) :
    piecesBytesTop hs = piecesBytesMk hs := by
  rw [piecesBytesTop_eq, piecesBytesMk_eq]

/-- C10 witness: the theorem applied to a concrete digest list. -/
theorem pieces_loops_agree_wit :
    piecesBytesTop [String.mk ['0', '1', 'f', 'f']] =
      piecesBytesMk [String.mk ['0', '1', 'f', 'f']] :=
  pieces_loops_agree [String.mk ['0', '1', 'f', 'f']]

/-! ## Claims about the metainfo build

Concrete requests used by counterexamples and witnesses. -/

/-- Properties fixture with an empty existing comment. -/
def pC1 : TorrentProps :=
  { comment := some "", creation_date := none, created_by := none,
    piece_size := 512 }

/-- Request whose piece-hash fetch failed (`pieceHashesResp = none`). -/
def reqC1 : MkRequest :=
  { name? := some "sample", announceList := ["http://tr.example/a"],
    comment? := none, isPrivate := some true,
    torrentInfo := some ("sample", "http://tr.example/a"),
    props := some pC1, daemonFiles := [⟨"sample.bin", 1024⟩],
    pieceHashesResp := none }

/-- C1 counterexample: for `reqC1` the piece-hash list cannot be obtained
(the response is not ok, so `client.pieceHashes` returns `[]`), yet the
build succeeds and the `info` dictionary carries a zero-length `pieces`
byte sequence. -/
theorem build_missing_hashes_cex :
    buildOk reqC1 = true ∧
      builtInfoLookup reqC1 "pieces" = some (.bytes []) :=
  ⟨rfl, rfl⟩

/-- C1 amended: when the piece-hash list cannot be obtained the client
substitutes the empty list and the build does not fail: it succeeds and
emits an `info` dictionary whose `pieces` field is the zero-length byte
sequence. -/
theorem build_missing_hashes (req : MkRequest) (ti : String × String)
    (p : TorrentProps) (f : DaemonFile) (fs : List DaemonFile)
    (h1 : req.torrentInfo = some ti) (h2 : req.props = some p)
    (h3 : req.daemonFiles = f :: fs) (h4 : req.pieceHashesResp = none) :
    buildOk req = true ∧
      builtInfoLookup req "pieces" = some (.bytes []) := by
  constructor
  · rw [buildOk, mktorrentBuild_ok req ti p f fs h1 h2 h3]
  · rw [builtInfoLookup_ok req ti p f fs h1 h2 h3, h4,
      infoDict_lookup_pieces]
    rfl

/-- C1 witness: the amended theorem applied to `reqC1`. -/
theorem build_missing_hashes_wit :
    buildOk reqC1 = true ∧
      builtInfoLookup reqC1 "pieces" = some (.bytes []) :=
  build_missing_hashes reqC1 ("sample", "http://tr.example/a") pC1
    ⟨"sample.bin", 1024⟩ [] rfl rfl rfl rfl

/-- Properties fixture for the single-file build. -/
def pC2 : TorrentProps :=
  { comment := some "", creation_date := none, created_by := none,
    piece_size := 512 }

/-- Single daemon file of the C2 witness. -/
def fC2 : DaemonFile := ⟨"sample/sample.bin", 1024⟩

/-- Single-file request of the C2 witness. -/
def reqC2 : MkRequest :=
  { name? := some "sample", announceList := ["u"], comment? := none,
    isPrivate := some true, torrentInfo := some ("sample", "u"),
    props := some pC2, daemonFiles := [fC2], pieceHashesResp := none }

/-- C2: with exactly one FileEntry the built `info` dictionary contains
`length` (equal to that entry's byte length) and no `files` key; with two
or more it contains `files` (the daemon-reported entries in order) and no
`length` key. -/
theorem info_single_multi_exclusive (req : MkRequest) (ti : String × String)
    (p : TorrentProps) (f : DaemonFile) (fs : List DaemonFile)
    (h1 : req.torrentInfo = some ti) (h2 : req.props = some p)
    (h3 : req.daemonFiles = f :: fs) :
    (fs = [] →
      builtInfoLookup req "length" = some (.num (f.size : Int)) ∧
      builtInfoLookup req "files" = none) ∧
    (fs ≠ [] →
      builtInfoLookup req "files" =
        some (.list ((req.daemonFiles.map mkFileEntry).map fileEntryJS)) ∧
      builtInfoLookup req "length" = none) := by
  constructor
  · rintro rfl
    simp only [builtInfoLookup_ok req ti p f [] h1 h2 h3]
    rw [List.map_cons, List.map_nil, infoDict_one]
    constructor <;> simp [objLookup]
  · intro hfs
    obtain ⟨f2, fs', rfl⟩ := List.exists_cons_of_ne_nil hfs
    simp only [builtInfoLookup_ok req ti p f (f2 :: fs') h1 h2 h3, h3]
    rw [List.map_cons, List.map_cons, infoDict_multi]
    constructor <;> simp [objLookup]

/-- C2 witness: the theorem applied to the single-file request `reqC2`. -/
theorem info_single_multi_exclusive_wit :
    (([] : List DaemonFile) = [] →
      builtInfoLookup reqC2 "length" = some (.num (fC2.size : Int)) ∧
      builtInfoLookup reqC2 "files" = none) ∧
    (([] : List DaemonFile) ≠ [] →
      builtInfoLookup reqC2 "files" =
        some (.list ((reqC2.daemonFiles.map mkFileEntry).map fileEntryJS)) ∧
      builtInfoLookup reqC2 "length" = none) :=
  info_single_multi_exclusive reqC2 ("sample", "u") pC2 fC2 [] rfl rfl rfl

/-- Properties fixture for the announce-shape claims. -/
def pC5 : TorrentProps :=
  { comment := some "", creation_date := none, created_by := none,
    piece_size := 1 }

/-- Request with one announce URL. -/
def reqC5 : MkRequest :=
  { name? := some "n", announceList := ["http://t.example/a"],
    comment? := some "c", isPrivate := some false,
    torrentInfo := some ("n", "http://t.example/a"), props := some pC5,
    daemonFiles := [⟨"f", 1⟩], pieceHashesResp := none }

/-- C5 counterexample: for `reqC5` the value under `announce-list` is the
flat list whose single element is the URL ByteString itself — a `str`, not
a one-element `list` wrapping the URL as the claim demands. -/
theorem announce_list_nested_cex :
    builtLookup reqC5 "announce-list" =
      some (.list [JSVal.str "http://t.example/a"]) ∧
    JSVal.str "http://t.example/a" ≠
      JSVal.list [JSVal.str "http://t.example/a"] :=
  ⟨rfl, fun h => JSVal.noConfusion h⟩

/-- C5 amended: `announce` maps to the first announce URL, and
`announce-list` maps to the flat List of the announce URLs (not wrapped in
one-element inner Lists) in the original primary-then-backups order. -/
theorem announce_list_flat (req : MkRequest) (ti : String × String)
    (p : TorrentProps) (f : DaemonFile) (fs : List DaemonFile)
    (a : String) (as : List String)
    (h1 : req.torrentInfo = some ti) (h2 : req.props = some p)
    (h3 : req.daemonFiles = f :: fs) (ha : req.announceList = a :: as) :
    builtLookup req "announce" = some (.str a) ∧
    builtLookup req "announce-list" =
      some (.list ((a :: as).map JSVal.str)) := by
  have hann : resolvedAnnounce req ti = a :: as := by
    rw [resolvedAnnounce, ha]
    simp
  simp only [builtLookup_ok req ti p f fs h1 h2 h3, hann]
  constructor <;> simp [outerDict, objLookup, jsIndex0]

/-- C5 witness: the amended theorem applied to `reqC5`. -/
theorem announce_list_flat_wit :
    builtLookup reqC5 "announce" = some (.str "http://t.example/a") ∧
    builtLookup reqC5 "announce-list" =
      some (.list (("http://t.example/a" :: []).map JSVal.str)) :=
  announce_list_flat reqC5 ("n", "http://t.example/a") pC5 ⟨"f", 1⟩ []
    "http://t.example/a" [] rfl rfl rfl rfl

/-- Properties fixture with piece size 50. -/
def pC6 : TorrentProps :=
  { comment := some "", creation_date := none, created_by := none,
    piece_size := 50 }

/-- Request with total size 100, piece size 50 and zero digests: the
expected piece count is 2 but 0 digests are supplied. -/
def reqC6 : MkRequest :=
  { name? := some "n", announceList := ["u"], comment? := none,
    isPrivate := some false, torrentInfo := some ("n", "u"),
    props := some pC6, daemonFiles := [⟨"f", 100⟩],
    pieceHashesResp := none }

/-- C6 counterexample: `reqC6` supplies 0 digests while
`ceil(totalSize / pieceLength)` is 2, yet the build succeeds and produces
output (no ValidationError). -/
theorem piece_count_check_cex :
    suppliedPieceCount reqC6 ≠ expectedPieceCount reqC6 ∧
      buildOk reqC6 = true := by
  constructor
  · decide
  · rfl

/-- C6 amended: the build performs no piece-count consistency check: even
when the digest count differs from `ceil(totalSize / pieceLength)` it
succeeds, provided the fetches succeed and the file list is non-empty. -/
theorem piece_count_not_checked (req : MkRequest) (ti : String × String)
    (p : TorrentProps) (f : DaemonFile) (fs : List DaemonFile)
    (h1 : req.torrentInfo = some ti) (h2 : req.props = some p)
    (h3 : req.daemonFiles = f :: fs)
    (_hcount : suppliedPieceCount req ≠ expectedPieceCount req) :
    buildOk req = true := by
  rw [buildOk, mktorrentBuild_ok req ti p f fs h1 h2 h3]

/-- C6 witness: the amended theorem applied to `reqC6`. -/
theorem piece_count_not_checked_wit : buildOk reqC6 = true :=
  piece_count_not_checked reqC6 ("n", "u") pC6 ⟨"f", 100⟩ [] rfl rfl rfl
    (by decide)

/-- Properties fixture for the empty-file-list claim. -/
def pC7 : TorrentProps :=
  { comment := some "", creation_date := none, created_by := none,
    piece_size := 1 }

/-- Request whose daemon file list is empty. -/
def reqC7 : MkRequest :=
  { name? := some "n", announceList := ["u"], comment? := none,
    isPrivate := some false, torrentInfo := some ("n", "u"),
    props := some pC7, daemonFiles := [], pieceHashesResp := none }

/-- C7 counterexample: for the empty file list the build fails with the
TypeError raised by reading `length` of the undefined `files[0]` — there
is no ValidationError anywhere in this code. -/
theorem empty_files_cex :
    mktorrentBuild reqC7 =
      .error (.typeError
        "Cannot read properties of undefined (reading 'length')") := rfl

/-- C7 amended: for every request whose file list is empty the build fails
— with a TypeError from accessing `files[0].length`, not a ValidationError
— and constructs no metainfo dictionary. -/
theorem empty_files_type_error (req : MkRequest) (ti : String × String)
    (p : TorrentProps) (h1 : req.torrentInfo = some ti)
    (h2 : req.props = some p) (h3 : req.daemonFiles = []) :
    mktorrentBuild req =
      .error (.typeError
        "Cannot read properties of undefined (reading 'length')") := by
  rw [mktorrentBuild, resolveNameAnnounce_eq req ti h1, h2, h3]
  rfl

/-- C7 witness: the amended theorem applied to `reqC7`. -/
theorem empty_files_type_error_wit :
    mktorrentBuild reqC7 =
      .error (.typeError
        "Cannot read properties of undefined (reading 'length')") :=
  empty_files_type_error reqC7 ("n", "u") pC7 rfl rfl rfl

/-- Properties fixture with all optional fields absent. -/
def pC8 : TorrentProps :=
  { comment := none, creation_date := none, created_by := none,
    piece_size := 1 }

/-- Request with no comment flag and no optional properties. -/
def reqC8 : MkRequest :=
  { name? := some "n", announceList := ["u"], comment? := none,
    isPrivate := some false, torrentInfo := some ("n", "u"),
    props := some pC8, daemonFiles := [⟨"f", 1⟩], pieceHashesResp := none }

/-- C8 counterexample: with `comment`, `created by` and `creation date`
all absent, the built outer dictionary still contains all three keys:
`comment` maps to the empty string and the other two to `undefined`. -/
theorem optional_fields_cex :
    builtLookup reqC8 "comment" = some (.str "") ∧
    builtLookup reqC8 "created by" = some .undef ∧
    builtLookup reqC8 "creation date" = some .undef :=
  ⟨rfl, rfl, rfl⟩

/-- C8 amended: the keys `comment`, `created by` and `creation date` are
always present in the built outer dictionary: `comment` maps to the
effective comment (the empty string when absent), the other two to the
supplied value, or `undefined` when the daemon supplied none. -/
theorem optional_fields_always_present (req : MkRequest)
    (ti : String × String) (p : TorrentProps) (f : DaemonFile)
    (fs : List DaemonFile) (h1 : req.torrentInfo = some ti)
    (h2 : req.props = some p) (h3 : req.daemonFiles = f :: fs) :
    builtLookup req "comment" = some (.str (effComment req p)) ∧
    builtLookup req "created by" = some (jsOfOptStr p.created_by) ∧
    builtLookup req "creation date" = some (jsOfOptNum p.creation_date) := by
  simp only [builtLookup_ok req ti p f fs h1 h2 h3]
  refine ⟨?_, ?_, ?_⟩ <;> simp [outerDict, objLookup]

/-- C8 witness: the amended theorem applied to `reqC8`. -/
theorem optional_fields_always_present_wit :
    builtLookup reqC8 "comment" = some (.str (effComment reqC8 pC8)) ∧
    builtLookup reqC8 "created by" = some (jsOfOptStr pC8.created_by) ∧
    builtLookup reqC8 "creation date" =
      some (jsOfOptNum pC8.creation_date) :=
  optional_fields_always_present reqC8 ("n", "u") pC8 ⟨"f", 1⟩ []
    rfl rfl rfl

/-- Properties fixture for the path-stripping claim. -/
def pC9 : TorrentProps :=
  { comment := some "", creation_date := none, created_by := none,
    piece_size := 4 }

/-- Daemon file with a root folder in its name. -/
def fC9a : DaemonFile := ⟨"root/a.txt", 5⟩

/-- Daemon file whose name contains no separator. -/
def fC9b : DaemonFile := ⟨"noslash", 3⟩

/-- Two-file request for the path-stripping witness. -/
def reqC9 : MkRequest :=
  { name? := some "n", announceList := ["u"], comment? := none,
    isPrivate := some false, torrentInfo := some ("n", "u"),
    props := some pC9, daemonFiles := [fC9a, fC9b],
    pieceHashesResp := none }

/-- C9: in a multi-file build, each entry of `info.files` carries the
daemon-reported name split on "/" with its first segment unconditionally
removed (`filePath`); consequently a daemon file whose name contains no
"/" separator yields an empty path list. -/
theorem files_path_shift (req : MkRequest) (ti : String × String)
    (p : TorrentProps) (f1 f2 : DaemonFile) (fs : List DaemonFile)
    (d : DaemonFile) (h1 : req.torrentInfo = some ti)
    (h2 : req.props = some p) (h3 : req.daemonFiles = f1 :: f2 :: fs)
    (_hd : d ∈ req.daemonFiles) (hsep : '/' ∉ d.name.data) :
    builtInfoLookup req "files" =
      some (.list (req.daemonFiles.map (fun x =>
        JSVal.obj [("length", JSVal.num (x.size : Int)),
          ("path", JSVal.list ((filePath x.name).map JSVal.str))]))) ∧
    filePath d.name = [] := by
  constructor
  · simp only [builtInfoLookup_ok req ti p f1 (f2 :: fs) h1 h2 h3, h3]
    rw [List.map_cons, List.map_cons, infoDict_multi]
    simp [objLookup, fileEntryJS, mkFileEntry]
  · exact filePath_no_sep d.name hsep

/-- C9 witness: the theorem applied to the two-file request `reqC9`, with
the separator-free file `fC9b`. -/
theorem files_path_shift_wit :
    builtInfoLookup reqC9 "files" =
      some (.list (reqC9.daemonFiles.map (fun x =>
        JSVal.obj [("length", JSVal.num (x.size : Int)),
          ("path", JSVal.list ((filePath x.name).map JSVal.str))]))) ∧
    filePath fC9b.name = [] :=
  files_path_shift reqC9 ("n", "u") pC9 fC9a fC9b [] fC9b rfl rfl rfl
    (by decide) (by decide)

end Qbit
